import Mathlib

/-
Formal model of the Schedy core of the hass-apps repository.

Embedded source files:
  * src/hass_apps/schedy/expression.py — the expression result algebra
    (ResultBase and its subclasses Result, Abort, Add, Break,
    IncludeSchedule, Skip) and the eval_expr wrapper;
  * src/hass_apps/schedy/room.py — Room.eval_schedule (the worklist
    traversal with expression memoization), Room.apply_schedule,
    Room.set_value, Room.notify_value_changed and the reschedule-timer
    helpers.

The repository's schedule module (Schedule, Rule, SubScheduleRule,
RulePath) and the actor base class are not part of the source tree; the
definitions below that depend on them are modelled from the
specification and carry a doc comment saying so.

Python object identity is modelled with explicit identifiers: an
expression (a compiled code object, memoized "by expression identity")
becomes an ExprId, a Schedule (compared with `==`, which is identity
for it) becomes a SchedId resolved through an environment SEnv.
Payloads of results are modelled by the small Value type; addition of
payloads is partial (addValue), mirroring Python's TypeError on
non-summable operands.
-/

namespace Schedy

/-- Timestamps handed to validity predicates. -/
abbrev Time := Nat

/-- Identity of a compiled expression (a Python code object). -/
abbrev ExprId := Nat

/-- Identity of a Schedule object. -/
abbrev SchedId := Nat

/-- Payload values flowing through rules and results. `noneV` is
Python's None, which also encodes "no value" in the places where the
source reuses None for that purpose. -/
inductive Value where
  | intV (n : Int)
  | strV (s : String)
  | noneV
deriving DecidableEq

/-- Python `+` on payloads: defined for int + int and str + str,
a TypeError (modelled as `none`) otherwise. -/
def addValue : Value → Value → Option Value
  | .intV a, .intV b => some (.intV (a + b))
  | .strV a, .strV b => some (.strV (a ++ b))
  | _, _ => none

/-- The closed set of expression results from expression.py.
`Result` is the spec's Final, `Add` is Accumulate, `Break` is
BreakLevels. `IncludeSchedule` stores the identity of the spliced-in
schedule. -/
inductive ResultBase where
  | Result (value : Value)
  | Abort
  | Add (value : Value)
  | Break (levels : Nat)
  | IncludeSchedule (sched : SchedId)
  | Skip
deriving DecidableEq

/-- Discriminator used to model Python's `type(self) is type(other)`. -/
def ResultBase.variantIdx : ResultBase → Nat
  | .Result _ => 0
  | .Abort => 1
  | .Add _ => 2
  | .Break _ => 3
  | .IncludeSchedule _ => 4
  | .Skip => 5

/-- ResultBase.eq from expression.py line 34: `type(self) is type(other)`,
comparing only the variant. -/
def ResultBase.resultBaseEq (a b : ResultBase) : Bool :=
  a.variantIdx == b.variantIdx

/-- AddibleMixin.eq from expression.py line 28: same type and equal
payload. For `Result` and `Add` this method is unreachable through
`==`: both are declared as `class C(ResultBase, AddibleMixin)`, whose
method resolution order is C, ResultBase, AddibleMixin, object, so
ResultBase's eq is found first. -/
def ResultBase.addibleMixinEq (a b : ResultBase) : Bool :=
  match a, b with
  | .Result x, .Result y => decide (x = y)
  | .Add x, .Add y => decide (x = y)
  | _, _ => ResultBase.resultBaseEq a b

/-- The equality Python actually dispatches for `==` on every
ResultBase subclass: ResultBase.eq, first along each class's method
resolution order (Break, Abort, IncludeSchedule and Skip define no eq
of their own; Result and Add shadow AddibleMixin's). -/
def ResultBase.pyEq (a b : ResultBase) : Bool :=
  ResultBase.resultBaseEq a b

/-- The ValueError message of Break.init (the interpolated repr of the
offending argument is omitted). -/
def breakErrMsg : String := "levels to break must be >= 1"

/-- Break.init from expression.py lines 68-73: rejects a levels
argument that is not an int or is < 1 with a ValueError (modelled by
the error case); otherwise stores the levels. Non-int arguments are
the non-intV values. -/
def breakInit : Value → Except String ResultBase
  | .intV n => if n < 1 then .error breakErrMsg else .ok (.Break n.toNat)
  | _ => .error breakErrMsg

/-- Add.add from expression.py lines 54-59: raises a TypeError
(modelled as `none`) when the right operand is not addible; otherwise
builds a value of the right operand's variant from the payload sum,
which itself raises (again `none`) when the payloads are not summable.
A left operand other than `Add` has no add method at all, which is
also a TypeError at the call site in Room.eval_schedule. -/
def ResultBase.add : ResultBase → ResultBase → Option ResultBase
  | .Add x, .Result y => (addValue x y).map .Result
  | .Add x, .Add y => (addValue x y).map .Add
  | .Add _, _ => none
  | _, _ => none

/-- Payload of an AddibleMixin instance (`Result` or `Add`), `none`
for the non-addible variants: models `isinstance(x, AddibleMixin)`
plus `.value`. -/
def addibleValue : ResultBase → Option Value
  | .Result v => some v
  | .Add v => some v
  | _ => none

/-- The in-place update `_result.value = value` performed by
Room.eval_schedule after validation. -/
def withPayload : ResultBase → Value → ResultBase
  | .Result _, v => .Result v
  | .Add _, v => .Add v
  | r, _ => r

/-- A raw Python object produced by evaluating an expression: either
already a ResultBase instance or a bare value. -/
inductive PyObj where
  | res (r : ResultBase)
  | val (v : Value)
deriving DecidableEq

/-- expression.eval_expr lines 124-143: run the expression (modelled
as an opaque function from the expression's identity to a raw object
or a raised exception) and wrap a non-ResultBase result in `Result`. -/
def eval_expr (rawEval : ExprId → Except Unit PyObj) (e : ExprId) :
    Except Unit ResultBase :=
  match rawEval e with
  | .error u => .error u
  | .ok (.res r) => .ok r
  | .ok (.val v) => .ok (.Result v)

/-- What Room.eval_expr hands back to the traversal: a ResultBase, or
the caught exception object. -/
inductive EvalRes where
  | ok (r : ResultBase)
  | exc
deriving DecidableEq

/-- Room.eval_expr lines 164-184: wraps expression.eval_expr and
returns any raised exception as a value. -/
def roomEvalExpr (rawEval : ExprId → Except Unit PyObj) (e : ExprId) : EvalRes :=
  match eval_expr rawEval e with
  | .ok r => .ok r
  | .error _ => .exc

/-- Modelled from the spec: the schedule module is not under src/.
A rule (spec section 3) carries a validity predicate, modelled
extensionally as the list of timestamps at which it holds, an optional
literal value, an optional expression and an optional nested
sub-schedule; a rule whose `sub` is set is what room.py tests with
`isinstance(last_rule, schedule.SubScheduleRule)`. Interior rules of a
path may carry an expression or literal in addition to their
sub-schedule: spec section 4.3c scans "the path's ancestor ValueRules
that carry an expression or literal". -/
structure Rule where
  valid : List Time
  value : Option Value
  expr : Option ExprId
  sub : Option SchedId
deriving DecidableEq

/-- Environment resolving a schedule identity to its ordered rules. -/
abbrev SEnv := SchedId → List Rule

/-- Modelled from the spec: Schedule.get_matching_rules (spec section
3) — all rules whose validity predicate holds at the given time,
preserving configured order. -/
def get_matching_rules (rules : List Rule) (when : Time) : List Rule :=
  rules.filter (fun r => r.valid.contains when)

/-- Modelled from the spec: a RulePath (spec section 3) records the
root Schedule it originates from and the rules of one descent. -/
structure RulePath where
  root_schedule : SchedId
  rules : List Rule
deriving DecidableEq

/-- RulePath.add: append one rule to the path. -/
def RulePath.add (p : RulePath) (r : Rule) : RulePath :=
  ⟨p.root_schedule, p.rules ++ [r]⟩

/-- Modelled from the spec: RulePath.rules_with_expr_or_value — the
path's rules that carry an expression or a literal, in root-to-frontier
order. -/
def RulePath.rules_with_expr_or_value (p : RulePath) : List Rule :=
  p.rules.filter (fun r => r.expr.isSome || r.value.isSome)

/-- The expression cache of one eval_schedule run, keyed by expression
identity. -/
abbrev Cache := List (ExprId × EvalRes)

/-- Lookup in the expression cache (`rule.expr in expr_cache`). -/
def cacheGet : Cache → ExprId → Option EvalRes
  | [], _ => none
  | (k, r) :: rest, e => if k = e then some r else cacheGet rest e

/-- The scan over `reversed(rules_with_expr_or_value)` in
Room.eval_schedule lines 248-266: evaluate the rule's expression
through the cache, else take its literal value as an immediate
`Result`, stopping at the first non-None outcome. Returns the outcome,
the updated cache, and the expressions for which the evaluator was
actually invoked (the cache misses). -/
def scanRules (ev : ExprId → EvalRes) : List Rule → Cache →
    Option EvalRes × Cache × List ExprId
  | [], cache => (none, cache, [])
  | r :: rs, cache =>
    match r.expr with
    | some e =>
      match cacheGet cache e with
      | some res => (some res, cache, [])
      | none => (some (ev e), (e, ev e) :: cache, [e])
    | none =>
      match r.value with
      | some v => (some (.ok (.Result v)), cache, [])
      | none => scanRules ev rs cache

/-- The Break pruning step of Room.eval_schedule lines 298-304:
compute the ancestor prefix of length `len(path.rules) - levels`
(clamped at 0) and delete the remaining worklist entries, starting at
the cursor, while they share the path's root schedule and that rule
prefix. -/
def breakPrune (path : RulePath) (levels : Nat) (rest : List RulePath) :
    List RulePath :=
  let pfxSize := path.rules.length - levels
  let pfx := path.rules.take pfxSize
  rest.dropWhile (fun q =>
    decide (q.root_schedule = path.root_schedule) &&
    decide (q.rules.take pfxSize = pfx))

/-- Outcome of processing one worklist entry: either the whole
resolution finishes with the given result, or it continues with a new
accumulator and worklist. -/
inductive StepRes where
  | done (r : Option (Value × Rule))
  | cont (result : Option ResultBase) (paths : List RulePath)

/-- The isinstance dispatch of Room.eval_schedule lines 268-312 on the
scanned outcome: skip on None or an exception; validate and fold an
addible result, returning on a folded `Result` and dropping the
contribution when the fold raises; return no result on `Abort`; prune
on `Break`; splice the matching rules of an included schedule in front
of the worklist; fall through (continue) on `Skip`. -/
def classify (env : SEnv) (validate : Value → Value) (when : Time)
    (result : Option ResultBase) (path : RulePath) (rest : List RulePath)
    (last_rule : Rule) (scanned : Option EvalRes) : StepRes :=
  match scanned with
  | none => .cont result rest
  | some .exc => .cont result rest
  | some (.ok r) =>
    match addibleValue r with
    | some v =>
      let value := validate v
      if value = .noneV then .cont result rest
      else
        let res1 := withPayload r value
        match result with
        | none =>
          match res1 with
          | .Result w => .done (some (w, last_rule))
          | _ => .cont (some res1) rest
        | some acc =>
          match ResultBase.add acc res1 with
          | none => .cont result rest
          | some newAcc =>
            match newAcc with
            | .Result w => .done (some (w, last_rule))
            | _ => .cont (some newAcc) rest
    | none =>
      match r with
      | .Abort => .done none
      | .Break levels => .cont result (breakPrune path levels rest)
      | .IncludeSchedule sid =>
        .cont result
          ((get_matching_rules (env sid) when).map (RulePath.mk sid []).add
            ++ rest)
      | _ => .cont result rest

/-- One iteration of the while loop of Room.eval_schedule for the path
at the cursor: expand a sub-schedule frontier in front of the
remaining worklist, otherwise scan the path's expr-or-value rules
deepest first and classify the outcome. Returns the step outcome, the
updated expression cache and the evaluator invocations performed. -/
def stepPath (env : SEnv) (ev : ExprId → EvalRes) (validate : Value → Value)
    (when : Time) (result : Option ResultBase) (path : RulePath)
    (rest : List RulePath) (cache : Cache) :
    StepRes × Cache × List ExprId :=
  match path.rules.getLast? with
  | none => (.cont result rest, cache, [])
  | some last_rule =>
    match last_rule.sub with
    | some sid =>
      (.cont result
        ((get_matching_rules (env sid) when).map path.add ++ rest),
       cache, [])
    | none =>
      let scanned := scanRules ev (path.rules_with_expr_or_value).reverse cache
      (classify env validate when result path rest last_rule scanned.1,
       scanned.2.1, scanned.2.2)

/-- Result of one eval_schedule run: the resolved value with the rule
that produced it (None when no result was found), plus the list of
evaluator invocations, recorded to reason about memoization. -/
structure EvalOut where
  res : Option (Value × Rule)
  calls : List ExprId
deriving DecidableEq

/-- The while loop of Room.eval_schedule lines 232-312, with the
worklist represented from the cursor onward (visited entries are only
read at the cursor, insertions and deletions only happen at or after
it). The fuel argument bounds the number of iterations; the source
loop is unbounded (IncludeSchedule splicing can make it diverge), and
exhausted fuel yields no result. -/
def evalLoop (env : SEnv) (ev : ExprId → EvalRes) (validate : Value → Value)
    (when : Time) :
    Nat → Option ResultBase → Cache → List RulePath → List ExprId → EvalOut
  | 0, _, _, _, calls => ⟨none, calls⟩
  | _ + 1, _, _, [], calls => ⟨none, calls⟩
  | fuel + 1, result, cache, path :: rest, calls =>
    match stepPath env ev validate when result path rest cache with
    | (.done r, _, newCalls) => ⟨r, calls ++ newCalls⟩
    | (.cont result2 paths2, cache2, newCalls) =>
      evalLoop env ev validate when fuel result2 cache2 paths2
        (calls ++ newCalls)

/-- Room.eval_schedule lines 186-315: seed the worklist with one
single-rule path per matching rule of the root schedule, then run the
loop with an empty accumulator and expression cache. -/
def eval_schedule (env : SEnv) (rawEval : ExprId → Except Unit PyObj)
    (validate : Value → Value) (fuel : Nat) (sid : SchedId) (when : Time) :
    EvalOut :=
  let rules := get_matching_rules (env sid) when
  let paths := rules.map (RulePath.mk sid []).add
  evalLoop env (roomEvalExpr rawEval) validate when fuel none [] paths []

/-- Room._validate_value for the generic actor type:
Generic.validate_value accepts any value, and _validate_value returns
None only when the actor type raises a ValueError, which the generic
actor never does. -/
def generic_validate : Value → Value := fun value => value

/-- Modelled from the spec: the actor base class (actor/base.py) is
not under src/. Spec section 6: an actuator exposes
`set(value, force_resend) -> changed`; a value equal to the one it
already carries is not re-sent unless force_resend is set. The Bool
result reports whether a push to the underlying entity happened. -/
structure Actor where
  current_value : Option Value
deriving DecidableEq

/-- Actor.set_value, modelled from the spec as described on `Actor`. -/
def Actor.set_value (a : Actor) (value : Value) (force_resend : Bool) :
    Actor × Bool :=
  if a.current_value = some value ∧ force_resend = false then (a, false)
  else (⟨some value⟩, true)

/-- The Room state of room.py: the per-room configuration entries the
embedded methods read (replicate_changes, reschedule_delay — 0 is
Python-falsy), the actors, the optional schedule (by identity), the
three mutable fields wanted_value, scheduled_value (noneV when unset,
as in the source) and the reschedule timer, tracked as armed or not
(the timer handle and its expiry time are not modelled). -/
structure Room where
  replicate_changes : Bool
  reschedule_delay : Nat
  actors : List Actor
  schedule : Option SchedId
  wanted_value : Value
  scheduled_value : Value
  reschedule_timer : Bool
deriving DecidableEq

/-- Room.set_value lines 409-434: record the wanted value and set it
on all actors. The returned count of actors that actually pushed is
instrumentation for the spec's notion of an actuator push (the source
only folds the per-actor results into a log flag). -/
def Room.set_value (room : Room) (value : Value) (scheduled : Bool)
    (force_resend : Bool) : Room × Nat :=
  let results := room.actors.map (fun a => a.set_value value force_resend)
  let outRoom : Room :=
    { room with wanted_value := value, actors := results.map Prod.fst }
  (outRoom, (results.filter (fun p => p.2)).length)

/-- Room.cancel_reschedule_timer lines 151-162: cancelling with no
timer armed is a no-op returning false. -/
def Room.cancel_reschedule_timer (room : Room) : Room × Bool :=
  if room.reschedule_timer then ({ room with reschedule_timer := false }, true)
  else (room, false)

/-- Room.start_reschedule_timer lines 474-503: an already armed timer
is kept unless restart is set, in which case it is cancelled and a new
one armed. The reschedule_delay only determines the timer's expiry
time, which is not modelled. -/
def Room.start_reschedule_timer (room : Room) (restart : Bool) :
    Room × Bool :=
  if room.reschedule_timer then
    if restart then ({ room with reschedule_timer := true }, true)
    else (room, false)
  else ({ room with reschedule_timer := true }, true)

/-- Room.notify_value_changed lines 393-407: replicate the externally
reported value to all actors when configured and more than one actor
exists (which also records it as the wanted value), then cancel the
reschedule timer when the value agrees with the wanted value, else arm
one when a non-zero reschedule delay is configured. Returns the new
state and the number of actuator pushes. -/
def Room.notify_value_changed (room : Room) (value : Value) : Room × Nat :=
  let step1 :=
    if room.replicate_changes = true ∧ 1 < room.actors.length then
      room.set_value value false false
    else (room, 0)
  let room1 := step1.1
  if value = room1.wanted_value then ((room1.cancel_reschedule_timer).1, step1.2)
  else if room1.reschedule_delay ≠ 0 then
    ((room1.start_reschedule_timer true).1, step1.2)
  else (room1, step1.2)

/-- Room.get_scheduled_value lines 317-326: evaluate the room's
schedule, none when no schedule is configured. -/
def Room.get_scheduled_value (room : Room) (env : SEnv)
    (rawEval : ExprId → Except Unit PyObj) (validate : Value → Value)
    (fuel : Nat) (when : Time) : Option (Value × Rule) :=
  match room.schedule with
  | none => none
  | some sid => (eval_schedule env rawEval validate fuel sid when).res

/-- Room.apply_schedule lines 98-149: do nothing while a reschedule
timer runs; resolve the schedule and do nothing when it yields no
result; skip when the result equals the recorded scheduled_value and
force_resend is not set; otherwise record it and, unless send is
false, push it to the actors. Returns the new state and the number of
actuator pushes. -/
def Room.apply_schedule (room : Room) (env : SEnv)
    (rawEval : ExprId → Except Unit PyObj) (validate : Value → Value)
    (fuel : Nat) (when : Time) (send : Bool) (force_resend : Bool) :
    Room × Nat :=
  if room.reschedule_timer then (room, 0)
  else
    match room.get_scheduled_value env rawEval validate fuel when with
    | none => (room, 0)
    | some (value, _rule) =>
      if value = room.scheduled_value ∧ force_resend = false then (room, 0)
      else
        let room1 := { room with scheduled_value := value }
        if send = false then (room1, 0)
        else room1.set_value value true force_resend

end Schedy

namespace Schedy

/-! Helper lemmas about the expression cache discipline of one
resolution run: a single scan performs at most one evaluator
invocation, always on a cache miss, and stores its outcome. -/

theorem scanRules_shape (ev : ExprId → EvalRes) :
    ∀ (rs : List Rule) (cache : Cache) (out : Option EvalRes)
      (cache2 : Cache) (calls : List ExprId),
      scanRules ev rs cache = (out, cache2, calls) →
      (calls = [] ∧ cache2 = cache) ∨
      ∃ e, calls = [e] ∧ cacheGet cache e = none ∧
        cache2 = (e, ev e) :: cache := by
  intro rs
  induction rs with
  | nil =>
    intro cache out cache2 calls h
    simp only [scanRules, Prod.mk.injEq] at h
    exact Or.inl ⟨h.2.2.symm, h.2.1.symm⟩
  | cons r rs ih =>
    intro cache out cache2 calls h
    cases hre : r.expr with
    | some e =>
      cases hc : cacheGet cache e with
      | some res =>
        simp only [scanRules, hre, hc, Prod.mk.injEq] at h
        exact Or.inl ⟨h.2.2.symm, h.2.1.symm⟩
      | none =>
        simp only [scanRules, hre, hc, Prod.mk.injEq] at h
        exact Or.inr ⟨e, h.2.2.symm, hc, h.2.1.symm⟩
    | none =>
      cases hrv : r.value with
      | some v =>
        simp only [scanRules, hre, hrv, Prod.mk.injEq] at h
        exact Or.inl ⟨h.2.2.symm, h.2.1.symm⟩
      | none =>
        simp only [scanRules, hre, hrv] at h
        exact ih cache out cache2 calls h

theorem stepPath_shape (env : SEnv) (ev : ExprId → EvalRes)
    (validate : Value → Value) (when : Time) (result : Option ResultBase)
    (path : RulePath) (rest : List RulePath) (cache : Cache)
    (st : StepRes) (cache2 : Cache) (calls : List ExprId) :
    stepPath env ev validate when result path rest cache = (st, cache2, calls) →
    (calls = [] ∧ cache2 = cache) ∨
    ∃ e, calls = [e] ∧ cacheGet cache e = none ∧
      cache2 = (e, ev e) :: cache := by
  intro h
  cases hl : path.rules.getLast? with
  | none =>
    simp only [stepPath, hl, Prod.mk.injEq] at h
    exact Or.inl ⟨h.2.2.symm, h.2.1.symm⟩
  | some last_rule =>
    cases hsub : last_rule.sub with
    | some sid =>
      simp only [stepPath, hl, hsub, Prod.mk.injEq] at h
      exact Or.inl ⟨h.2.2.symm, h.2.1.symm⟩
    | none =>
      rcases hscan : scanRules ev (path.rules_with_expr_or_value).reverse cache
        with ⟨o, c2, cs⟩
      simp only [stepPath, hl, hsub, hscan, Prod.mk.injEq] at h
      rcases scanRules_shape ev _ cache o c2 cs hscan with ⟨hc, he⟩ | ⟨e, hc, hg, he⟩
      · exact Or.inl ⟨h.2.2.symm.trans hc, h.2.1.symm.trans he⟩
      · exact Or.inr ⟨e, h.2.2.symm.trans hc, hg, h.2.1.symm.trans he⟩

theorem count_single_ne {e e0 : ExprId} (h : ¬ e = e0) :
    List.count e [e0] = 0 := by
  simp [List.count_cons, h]

theorem evalLoop_count_le (env : SEnv) (ev : ExprId → EvalRes)
    (validate : Value → Value) (when : Time) (e : ExprId) :
    ∀ (fuel : Nat) (result : Option ResultBase) (cache : Cache)
      (paths : List RulePath) (calls : List ExprId),
      calls.count e ≤ 1 →
      (1 ≤ calls.count e → (cacheGet cache e).isSome = true) →
      ((evalLoop env ev validate when fuel result cache paths calls).calls).count e
        ≤ 1 := by
  intro fuel
  induction fuel with
  | zero =>
    intro result cache paths calls h1 h2
    simpa [evalLoop] using h1
  | succ n ih =>
    intro result cache paths calls h1 h2
    cases paths with
    | nil => simpa [evalLoop] using h1
    | cons path rest =>
      rcases hsp : stepPath env ev validate when result path rest cache
        with ⟨st, cache2, newCalls⟩
      have hshape := stepPath_shape env ev validate when result path rest cache
        st cache2 newCalls hsp
      have hcount : (calls ++ newCalls).count e ≤ 1 := by
        rcases hshape with ⟨hc, _⟩ | ⟨e0, hc, hg, _⟩
        · simpa [hc] using h1
        · subst hc
          rw [List.count_append]
          by_cases heq : e = e0
          · subst heq
            have hz : calls.count e = 0 := by
              by_contra hnz
              have hone : 1 ≤ calls.count e := Nat.one_le_iff_ne_zero.mpr hnz
              have hsome := h2 hone
              rw [hg] at hsome
              simp at hsome
            simp [hz, List.count_cons]
          · have hz := count_single_ne heq
            omega
      have hcache : 1 ≤ (calls ++ newCalls).count e →
          (cacheGet cache2 e).isSome = true := by
        rcases hshape with ⟨hc, hcc⟩ | ⟨e0, hc, hg, hcc⟩
        · subst hcc
          intro hle
          exact h2 (by simpa [hc] using hle)
        · subst hcc
          intro hle
          by_cases heq : e0 = e
          · simp [cacheGet, heq]
          · have : cacheGet ((e0, ev e0) :: cache) e = cacheGet cache e := by
              simp [cacheGet, heq]
            rw [this]
            refine h2 ?_
            rw [hc, List.count_append] at hle
            have hz := count_single_ne (fun hh => heq hh.symm)
            omega
      cases st with
      | done r =>
        simp only [evalLoop, hsp]
        exact hcount
      | cont result2 paths2 =>
        simp only [evalLoop, hsp]
        exact ih result2 cache2 paths2 (calls ++ newCalls) hcount hcache

/-! Concrete schedules, evaluators and rooms used to settle the
individual properties. -/

/-- Outermost rule of the override-precedence scenario: carries
expression 1 and a sub-schedule (schedule 1). -/
def ovR1 : Rule := ⟨[0], none, some 1, some 1⟩

/-- Innermost (frontier) rule of the override-precedence scenario:
carries expression 2. -/
def ovR2 : Rule := ⟨[0], none, some 2, none⟩

/-- Schedule environment of the override-precedence scenario: the root
schedule 0 holds ovR1, whose sub-schedule 1 holds ovR2. -/
def ovEnv : SEnv := fun sid =>
  if sid = 0 then [ovR1] else if sid = 1 then [ovR2] else []

/-- Raw evaluator of the override-precedence scenario: expression 2
(the innermost rule's) yields r2, every other expression — in
particular expression 1, the outermost rule's — yields r1. -/
def ovEval (r1 r2 : Except Unit PyObj) : ExprId → Except Unit PyObj :=
  fun e => if e = 2 then r2 else r1

/-- The override-precedence evaluator where R1's expression yields
Final(1) and R2's expression yields Skip. -/
def ovSkipEval : ExprId → Except Unit PyObj :=
  ovEval (.ok (.res (.Result (.intV 1)))) (.ok (.res .Skip))

/-- C1 (counterexample): with R1's expression yielding Final(1) and
R2's (the innermost) yielding Skip, the resolution returns no result:
R1's value is not used for the path, contradicting the claim that it
would be. -/
theorem override_precedence_skip_refuted :
    ovSkipEval 1 = .ok (.res (.Result (.intV 1))) ∧
    (eval_schedule ovEnv ovSkipEval generic_validate 5 0 0).res = none :=
  ⟨rfl, rfl⟩

/-- C1 (amended): the deepest-first scan stops at the innermost
expr-or-value rule. If R2's expression yields Final(5), the resolved
value is 5 regardless of what R1's expression yields (r1 is
universally quantified and never consulted); if R2's expression yields
Skip, the path contributes nothing — again regardless of R1 — and the
run resolves to no result. -/
theorem override_precedence_amended :
    ∀ r1 : Except Unit PyObj,
      (eval_schedule ovEnv (ovEval r1 (.ok (.res (.Result (.intV 5)))))
        generic_validate 5 0 0).res = some (.intV 5, ovR2) ∧
      (eval_schedule ovEnv (ovEval r1 (.ok (.res .Skip)))
        generic_validate 5 0 0).res = none :=
  fun _ => ⟨rfl, rfl⟩

/-- Rule A of the BreakLevels scenario: sub-schedule rule for
schedule 1. -/
def bA : Rule := ⟨[0], none, none, some 1⟩

/-- Rule B of the BreakLevels scenario: sub-schedule rule for
schedule 2, sibling of E under A. -/
def bB : Rule := ⟨[0], none, none, some 2⟩

/-- Rule C of the BreakLevels scenario: frontier rule whose expression
(3) yields Break(2). -/
def bC : Rule := ⟨[0], none, some 3, none⟩

/-- Rule D of the BreakLevels scenario: value rule, sibling of C
under B. -/
def bD : Rule := ⟨[0], some (.intV 7), none, none⟩

/-- Rule E of the BreakLevels scenario: value rule, sibling of B
under A. -/
def bE : Rule := ⟨[0], some (.intV 9), none, none⟩

/-- Schedule environment of the BreakLevels scenario: root schedule 0
holds A; A's sub-schedule holds B then E; B's sub-schedule holds C
then D. -/
def b2Env : SEnv := fun sid =>
  if sid = 0 then [bA] else if sid = 1 then [bB, bE]
  else if sid = 2 then [bC, bD] else []

/-- Evaluator of the BreakLevels scenario: every expression yields
Break(2). -/
def b2Eval : ExprId → Except Unit PyObj := fun _ => .ok (.res (.Break 2))

/-- C2 (counterexample): pruning after path [A,B,C] (depth 3) yields
Break(2) does not leave [A,E] in the worklist — the claim that [A,E]
is kept is false: the ancestor prefix has length max(0, 3-2) = 1 and
[A,E] shares the 1-rule prefix [A] too. -/
theorem break_levels_keep_refuted :
    breakPrune ⟨0, [bA, bB, bC]⟩ 2 [⟨0, [bA, bB, bD]⟩, ⟨0, [bA, bE]⟩]
      ≠ [⟨0, [bA, bE]⟩] := by decide

/-- C2 (amended): the pruning step removes both unvisited paths
[A,B,D] and [A,E] (both share the 1-rule prefix [A] with the breaking
path); consequently the whole resolution of the scenario finds no
result, after the single evaluator call for C's expression. -/
theorem break_levels_prunes_both :
    breakPrune ⟨0, [bA, bB, bC]⟩ 2 [⟨0, [bA, bB, bD]⟩, ⟨0, [bA, bE]⟩] = [] ∧
    eval_schedule b2Env b2Eval generic_validate 9 0 0 = ⟨none, [3]⟩ := by
  exact ⟨by decide, by decide⟩

/-- The drift-reconciliation counterexample room: replicate_changes
on, two actors, nonzero reschedule delay, wanted value 5, a pending
reschedule timer. -/
def droom : Room :=
  ⟨true, 1, [⟨some (.intV 5)⟩, ⟨some (.intV 5)⟩], none, .intV 5, .noneV, true⟩

/-- C3 (counterexample): an actor reports value 7, different from the
wanted value 5, with a nonzero reschedule delay configured — the claim
demands a reschedule timer be armed (restarting the pending one), but
replication runs first and overwrites the wanted value with 7, so the
handler cancels the pending timer instead and ends with no timer
armed. -/
theorem drift_replicate_refuted :
    droom.replicate_changes = true ∧ 1 < droom.actors.length ∧
    Value.intV 7 ≠ droom.wanted_value ∧ droom.reschedule_delay ≠ 0 ∧
    droom.reschedule_timer = true ∧
    ((droom.notify_value_changed (.intV 7)).1).reschedule_timer = false := by
  decide

/-- C3 (amended): for every externally reported value change, if
replication runs (replicate_changes and more than one actor), the
handler always ends with no reschedule timer armed, because
replication records the reported value as wanted before the drift
check; otherwise the claimed behavior holds: a value equal to the
wanted value cancels any pending timer, a different value arms one
when a nonzero reschedule delay is configured, and the timer state is
untouched when the delay is zero. -/
theorem drift_reconciliation_amended (room : Room) (value : Value) :
    ((room.notify_value_changed value).1).reschedule_timer =
      (if room.replicate_changes = true ∧ 1 < room.actors.length then false
       else if value = room.wanted_value then false
       else if room.reschedule_delay ≠ 0 then true
       else room.reschedule_timer) := by
  cases hrt : room.reschedule_timer <;>
    unfold Room.notify_value_changed Room.set_value Room.cancel_reschedule_timer
      Room.start_reschedule_timer <;>
    split_ifs <;> simp_all

/-- C4: equality on result values as the code dispatches it compares
only the variant: Result(5) == Result(7) and Break(1) == Break(2) both
evaluate to True, while the payload-comparing AddibleMixin equality
the class hierarchy also defines (shadowed by ResultBase's along the
method resolution order) would distinguish them. -/
theorem result_equality_ignores_payload :
    ResultBase.pyEq (.Result (.intV 5)) (.Result (.intV 7)) = true ∧
    ResultBase.pyEq (.Break 1) (.Break 2) = true ∧
    ResultBase.addibleMixinEq (.Result (.intV 5)) (.Result (.intV 7)) = false := by
  decide

/-- Path of the addition-recovery scenario whose expression (4) yields
Final("a"), not summable with the pending integer accumulator. -/
def errPath5 : RulePath := ⟨0, [⟨[0], none, some 4, none⟩]⟩

/-- Frontier rule of the addition-recovery scenario whose expression
(6) yields Final(3). -/
def okRule5 : Rule := ⟨[0], none, some 6, none⟩

/-- Path holding okRule5. -/
def okPath5 : RulePath := ⟨0, [okRule5]⟩

/-- Evaluator of the addition-recovery scenario. -/
def ev5 : ExprId → EvalRes := roomEvalExpr (fun e =>
  if e = 4 then .ok (.res (.Result (.strV "a"))) else .ok (.res (.Result (.intV 3))))

/-- C5: Accumulate(x) + Final(y) is Final(x+y) and
Accumulate(x) + Accumulate(y) is Accumulate(x+y) whenever the payloads
are summable; adding any non-addible right operand (Abort, Break,
Skip, IncludeSchedule) is a TypeError; and such a failure during
traversal is recoverable: with accumulator Accumulate(2), a path
yielding the unsummable Final("a") is dropped and resolution continues
to the next path, which yields Final(3) and closes the run with 2+3=5
(for every schedule environment, which the scenario never consults). -/
theorem accumulate_addition :
    (∀ x y v, addValue x y = some v →
      ResultBase.add (.Add x) (.Result y) = some (.Result v) ∧
      ResultBase.add (.Add x) (.Add y) = some (.Add v)) ∧
    (∀ x, ResultBase.add (.Add x) .Abort = none) ∧
    (∀ x n, ResultBase.add (.Add x) (.Break n) = none) ∧
    (∀ x, ResultBase.add (.Add x) .Skip = none) ∧
    (∀ x s, ResultBase.add (.Add x) (.IncludeSchedule s) = none) ∧
    (∀ env : SEnv,
      evalLoop env ev5 generic_validate 0 3 (some (.Add (.intV 2))) []
        [errPath5, okPath5] [] = ⟨some (.intV 5, okRule5), [4, 6]⟩) := by
  refine ⟨?_, fun x => rfl, fun x n => rfl, fun x => rfl, fun x s => rfl,
    fun env => rfl⟩
  intro x y v h
  constructor <;> simp [ResultBase.add, h]

/-- C5 (witness): the addition law applied at Accumulate(1) + Final(2). -/
theorem accumulate_addition_witness :
    addValue (.intV 1) (.intV 2) = some (.intV 3) ∧
    ResultBase.add (.Add (.intV 1)) (.Result (.intV 2))
      = some (.Result (.intV 3)) :=
  ⟨by decide, (accumulate_addition.1 (.intV 1) (.intV 2) (.intV 3) (by decide)).1⟩

/-- C6: within one eval_schedule run, the expression evaluator is
invoked at most once per distinct expression identity, whatever the
schedule environment, raw evaluator (evaluation errors included, since
they are cached like results), validator, fuel and time. -/
theorem expression_memoized_once (env : SEnv)
    (rawEval : ExprId → Except Unit PyObj) (validate : Value → Value)
    (fuel : Nat) (sid : SchedId) (when : Time) (e : ExprId) :
    ((eval_schedule env rawEval validate fuel sid when).calls).count e ≤ 1 := by
  unfold eval_schedule
  refine evalLoop_count_le env (roomEvalExpr rawEval) validate when e fuel none
    [] _ [] (by rw [List.count_nil]; omega) ?_
  intro hle
  rw [List.count_nil] at hle
  exact absurd hle (by omega)

/-- Single-rule path whose expression (9) yields Abort. -/
def abortPath : RulePath := ⟨0, [⟨[0], none, some 9, none⟩]⟩

/-- Evaluator for the Abort scenario: every expression yields Abort. -/
def abortEv : ExprId → EvalRes := roomEvalExpr (fun _ => .ok (.res .Abort))

/-- Schedule environment whose root schedule 0 holds two expression
rules: expression 1 yields Accumulate(2) (a partial accumulator),
expression 2 then yields Abort. -/
def env7 : SEnv := fun sid =>
  if sid = 0 then [⟨[0], none, some 1, none⟩, ⟨[0], none, some 2, none⟩] else []

/-- Raw evaluator for env7: expression 2 yields Abort, everything else
Accumulate(2). -/
def f7 : ExprId → Except Unit PyObj :=
  fun e => if e = 2 then .ok (.res .Abort) else .ok (.res (.Add (.intV 2)))

/-- C7: a path yielding Abort terminates the loop immediately with no
result, for every pending accumulator (even a partial one) and every
remaining worklist, which is discarded unexamined; concretely, a run
that first accumulates Accumulate(2) and then hits Abort returns no
result; and whenever resolution yields no result, apply_schedule
leaves the whole room state unchanged (wanted_value, scheduled_value,
actors, timer all arbitrary here) and pushes nothing. -/
theorem abort_no_result_frame :
    (∀ (env : SEnv) (when : Time) (result : Option ResultBase)
       (rest : List RulePath) (fuel : Nat),
       evalLoop env abortEv generic_validate when (fuel + 1) result []
         (abortPath :: rest) [] = ⟨none, [9]⟩) ∧
    eval_schedule env7 f7 generic_validate 5 0 0 = ⟨none, [1, 2]⟩ ∧
    (∀ (b : Bool) (d : Nat) (as : List Actor) (w sv : Value)
       (send force : Bool),
       Room.apply_schedule ⟨b, d, as, some 0, w, sv, false⟩ env7 f7
         generic_validate 5 0 send force
         = (⟨b, d, as, some 0, w, sv, false⟩, 0)) :=
  ⟨fun _ _ _ _ _ => rfl, rfl, fun _ _ _ _ _ _ _ => rfl⟩

/-- C8: with no reschedule timer running, a schedule resolving to v,
a recorded scheduled_value different from v and a single actor not
already at v, the first apply_schedule pushes exactly once; a second
apply_schedule with the resolution unchanged pushes nothing; a second
apply_schedule with force_resend pushes again despite no change. -/
theorem no_redundant_push (env : SEnv) (f : ExprId → Except Unit PyObj)
    (validate : Value → Value) (fuel : Nat) (when : Time)
    (room : Room) (v : Value) (rl : Rule) (a : Actor)
    (h1 : room.reschedule_timer = false)
    (h2 : room.get_scheduled_value env f validate fuel when = some (v, rl))
    (h3 : ¬ v = room.scheduled_value)
    (h4 : room.actors = [a])
    (h5 : ¬ a.current_value = some v) :
    (room.apply_schedule env f validate fuel when true false).2 = 1 ∧
    ((room.apply_schedule env f validate fuel when true false).1.apply_schedule
        env f validate fuel when true false).2 = 0 ∧
    ((room.apply_schedule env f validate fuel when true false).1.apply_schedule
        env f validate fuel when true true).2 = 1 := by
  have e1 : room.apply_schedule env f validate fuel when true false =
      (⟨room.replicate_changes, room.reschedule_delay, [⟨some v⟩],
        room.schedule, v, v, room.reschedule_timer⟩, 1) := by
    simp only [Room.apply_schedule, h1, h2, Room.set_value, h4]
    simp [h3, Actor.set_value, h5]
  have h2' : (⟨room.replicate_changes, room.reschedule_delay, [⟨some v⟩],
      room.schedule, v, v, room.reschedule_timer⟩ : Room).get_scheduled_value
      env f validate fuel when = some (v, rl) := h2
  refine ⟨by rw [e1], ?_, ?_⟩
  · rw [e1]
    simp only [Room.apply_schedule, h2']
    simp [h1]
  · rw [e1]
    simp only [Room.apply_schedule, h2', Room.set_value]
    simp [h1, Actor.set_value]

/-- Schedule environment of the no-redundant-push witness: one literal
value rule yielding 4. -/
def sched8 : SEnv := fun sid =>
  if sid = 0 then [⟨[0], some (.intV 4), none, none⟩] else []

/-- Raw evaluator of the no-redundant-push witness (never consulted:
the rule carries a literal). -/
def f8 : ExprId → Except Unit PyObj := fun _ => .error ()

/-- Room of the no-redundant-push witness: one actor with no known
value, schedule 0, nothing scheduled yet, no timer. -/
def room8 : Room := ⟨false, 0, [⟨none⟩], some 0, .noneV, .noneV, false⟩

/-- C8 (witness): the no-redundant-push theorem applied to room8. -/
theorem no_redundant_push_witness :
    (room8.apply_schedule sched8 f8 generic_validate 3 0 true false).2 = 1 ∧
    ((room8.apply_schedule sched8 f8 generic_validate 3 0 true
        false).1.apply_schedule sched8 f8 generic_validate 3 0 true false).2
      = 0 ∧
    ((room8.apply_schedule sched8 f8 generic_validate 3 0 true
        false).1.apply_schedule sched8 f8 generic_validate 3 0 true true).2
      = 1 :=
  no_redundant_push sched8 f8 generic_validate 3 0 room8 (.intV 4)
    ⟨[0], some (.intV 4), none, none⟩ ⟨none⟩ rfl (by decide) (by decide)
    rfl (by decide)

/-- C9: constructing Break with an integer below 1 or with a non-int
argument raises a ValueError, so an invalid Break never reaches
traversal; for every n >= 1 construction succeeds and stores n. -/
theorem break_levels_construction :
    (∀ n : Int, 1 ≤ n → breakInit (.intV n) = .ok (.Break n.toNat)) ∧
    breakInit (.intV 0) = .error breakErrMsg ∧
    (∀ s, breakInit (.strV s) = .error breakErrMsg) ∧
    breakInit .noneV = .error breakErrMsg := by
  refine ⟨?_, rfl, fun s => rfl, rfl⟩
  intro n hn
  simp only [breakInit]
  rw [if_neg (by omega)]

/-- C9 (witness): Break(2) is accepted and stores 2. -/
theorem break_levels_construction_witness :
    (1 : Int) ≤ 2 ∧ breakInit (.intV 2) = .ok (.Break 2) :=
  ⟨by norm_num, break_levels_construction.1 2 (by norm_num)⟩

/-- C10: an expression evaluating to a bare (non-ResultBase) value v
is wrapped into Result(v) by eval_expr — in particular a bare None
becomes Result(None), not the absence of a result. -/
theorem eval_expr_wraps_bare_values :
    (∀ (f : ExprId → Except Unit PyObj) (e : ExprId) (v : Value),
      f e = .ok (.val v) → eval_expr f e = .ok (.Result v)) ∧
    (∀ (f : ExprId → Except Unit PyObj) (e : ExprId),
      f e = .ok (.val .noneV) → eval_expr f e = .ok (.Result .noneV)) := by
  constructor
  · intro f e v h
    unfold eval_expr
    rw [h]
  · intro f e h
    unfold eval_expr
    rw [h]

/-- Raw evaluator of the eval_expr witness: every expression evaluates
to the bare value None. -/
def c10f : ExprId → Except Unit PyObj := fun _ => .ok (.val .noneV)

/-- C10 (witness): the wrapping law applied to a bare None. -/
theorem eval_expr_wraps_bare_values_witness :
    c10f 0 = .ok (.val .noneV) ∧ eval_expr c10f 0 = .ok (.Result .noneV) :=
  ⟨rfl, eval_expr_wraps_bare_values.2 c10f 0 rfl⟩

end Schedy
